import Mathlib

/-!
Shallow embedding of the repository's three scripts:
* `capston0.2.py` — the campus-energy aggregation pipeline
  (`load_and_combine_data`, `collect_user_input`, `calculate_daily_totals`,
  `building_wise_summary`, and the merging logic of `main`);
* `library.py` — the JSON-backed library CLI (`find`, `add_book`,
  `issue_book`, `return_book`);
* `tracker.py` — the console calorie tracker.

Timestamps are modelled as seconds since an epoch (`Int`); `pd.to_datetime`
flooring to a calendar day is integer floor-division by 86400.  kWh values
are modelled as exact rationals (`ℚ`).  Fallible operations return `Option`.
-/

namespace Energy

/-- A row of the cleaned, combined DataFrame produced by
`load_and_combine_data`: after `dropna(subset=["timestamp","kwh"])` both
the timestamp and the kwh value are present and well-typed. -/
structure CleanRow where
  timestamp : Int
  kwh : ℚ
  building : String
  deriving DecidableEq, Repr

/-- Calendar day of a timestamp: `pd.Timestamp` floored to day frequency,
i.e. floor-division of the epoch-seconds value by 86400. -/
def dayOf (t : Int) : Int := Int.fdiv t 86400

/-- First calendar day occurring in a frame (resampling start). -/
def loDay (df : List CleanRow) (d0 : Int) : Int :=
  (df.map (fun x => dayOf x.timestamp)).foldl min d0

/-- Last calendar day occurring in a frame (resampling end). -/
def hiDay (df : List CleanRow) (d0 : Int) : Int :=
  (df.map (fun x => dayOf x.timestamp)).foldl max d0

/-- The consecutive calendar days `lo, lo+1, …, hi` of a resampled index. -/
def daysRange (lo hi : Int) : List Int :=
  (List.range (hi - lo + 1).toNat).map (fun i : ℕ => lo + (i : Int))

/-- `df_local["kwh"].resample("D").sum()`: one bucket per calendar day from
the first day to the last day of the data (gap days included, summing to 0),
each holding the sum of the kwh of the readings falling on that day.
An empty frame resamples to an empty series. -/
def calculate_daily_totals : List CleanRow → List (Int × ℚ)
  | [] => []
  | r :: rs =>
    (daysRange (loDay (r :: rs) (dayOf r.timestamp))
               (hiDay (r :: rs) (dayOf r.timestamp))).map
      (fun d => (d,
        (((r :: rs).filter (fun x => dayOf x.timestamp = d)).map CleanRow.kwh).sum))

/-- Per-building row of `building_wise_summary`:
`df.groupby("building")["kwh"].agg(mean, min, max, total_kwh)`. -/
structure BuildingStat where
  building : String
  mean : ℚ
  min : ℚ
  max : ℚ
  total_kwh : ℚ
  deriving DecidableEq, Repr

/-- Minimum of a (nonempty) group of kwh values; pandas `min`. -/
def listMin : List ℚ → ℚ
  | [] => 0
  | x :: xs => xs.foldl Min.min x

/-- Maximum of a (nonempty) group of kwh values; pandas `max`. -/
def listMax : List ℚ → ℚ
  | [] => 0
  | x :: xs => xs.foldl Max.max x

/-- The kwh values of the readings of one building (one `groupby` group). -/
def groupKwh (df : List CleanRow) (b : String) : List ℚ :=
  (df.filter (fun r => r.building = b)).map CleanRow.kwh

/-- `building_wise_summary`: group by building, aggregate
mean/min/max/total, then `sort_values("total_kwh", ascending=False)`. -/
def building_wise_summary (df : List CleanRow) : List BuildingStat :=
  let stats := ((df.map CleanRow.building).dedup).map (fun b =>
    let ks := groupKwh df b
    { building := b, mean := ks.sum / (ks.length : ℚ),
      min := listMin ks, max := listMax ks, total_kwh := ks.sum })
  List.insertionSort (fun a b : BuildingStat => b.total_kwh ≤ a.total_kwh) stats

/-- Outcome of `pd.read_csv` on one file: the call can raise
(`EmptyDataError` for an empty file, any other exception for a file that
fails to parse — both are caught and the file skipped), or yield a table
with a header and rows.  Each cell's parse outcome under the later
`pd.to_datetime(..., errors="coerce")` / `pd.to_numeric(..., errors="coerce")`
is carried directly: `none` models `NaT`/`NaN`. -/
inductive CsvContent where
  | parseError
  | emptyFile
  | table (cols : List String) (rows : List (Option Int × Option ℚ))
  deriving DecidableEq, Repr

/-- One `*.csv` file of the data folder: its stem (filename minus
extension, used as the building identifier) and its content. -/
structure CsvFile where
  stem : String
  content : CsvContent
  deriving DecidableEq, Repr

/-- The per-file loop body of `load_and_combine_data`: skip a file that
raises on read or is empty, skip a file whose header lacks `timestamp` or
`kwh`, otherwise tag each row with the file's stem as its building. -/
def readFrame (f : CsvFile) : Option (List (Option Int × Option ℚ × String)) :=
  match f.content with
  | .parseError => none
  | .emptyFile => none
  | .table cols rows =>
    if "timestamp" ∈ cols ∧ "kwh" ∈ cols then
      some (rows.map (fun r => (r.1, r.2, f.stem)))
    else none

/-- `load_and_combine_data`: `None` for an absent directory, `None` when
the (name-sorted) directory holds no CSV files, frames collected per file
with invalid files skipped, `None` when no frame survives; otherwise the
frames are concatenated, rows whose timestamp or kwh coerced to `NaT`/`NaN`
are dropped, and the result is sorted by timestamp ascending. -/
def load_and_combine_data (dir : Option (List CsvFile)) : Option (List CleanRow) :=
  match dir with
  | none => none
  | some files =>
    let csv_files := List.insertionSort (fun a b : CsvFile => a.stem ≤ b.stem) files
    if csv_files.isEmpty then none
    else
      let frames := csv_files.filterMap readFrame
      if frames.isEmpty then none
      else
        let df := frames.flatten
        let cleaned := df.filterMap (fun r =>
          match r.1, r.2.1 with
          | some t, some k => some (⟨t, k, r.2.2⟩ : CleanRow)
          | _, _ => none)
        some (List.insertionSort (fun a b : CleanRow => a.timestamp ≤ b.timestamp) cleaned)

/-- A file is malformed when `read_csv` raises on it (parse failure or
empty file) or when its header lacks the `timestamp` or the `kwh` column. -/
def malformed (f : CsvFile) : Prop :=
  match f.content with
  | .parseError => True
  | .emptyFile => True
  | .table cols _ => "timestamp" ∉ cols ∨ "kwh" ∉ cols

/-- A timestamp value held by a merged dataset row: `pd.to_datetime` on the
entered text either succeeds (a datetime) or, in `collect_user_input`, the
raw text is kept unchanged. -/
inductive TsVal where
  | parsed (t : Int)
  | raw (s : String)
  deriving DecidableEq, Repr

/-- A row of the combined dataset `main` hands to aggregation: timestamp
(datetime or raw text), numeric kwh, building name. -/
structure Reading where
  timestamp : TsVal
  kwh : ℚ
  building : String
  deriving DecidableEq, Repr

/-- One manual-entry round of `collect_user_input`: the texts the user
typed for building, timestamp and kWh, with the parse outcome of
`pd.to_datetime(timestamp)` (`none` = raised) and of `float(kwh)`
(`none` = `ValueError`). -/
structure EntryRow where
  building : String
  tsText : String
  tsParse : Option Int
  kwhText : String
  kwhParse : Option ℚ
  deriving DecidableEq, Repr

/-- One interaction of the entry loop: either the sentinel `done` was
typed at one of the three prompts, or a full triple was entered. -/
inductive UserEvent where
  | done
  | row (e : EntryRow)
  deriving DecidableEq, Repr

/-- The loop of `collect_user_input`: stop at the sentinel; a row whose
kWh text is not numeric is skipped with a warning and the loop continues;
otherwise the timestamp is parsed if possible (kept as raw text when
`pd.to_datetime` raises) and the row is appended. -/
def collect_user_input : List UserEvent → List Reading
  | [] => []
  | .done :: _ => []
  | .row e :: rest =>
    match e.kwhParse with
    | none => collect_user_input rest
    | some k =>
      let ts := match e.tsParse with
        | some t => TsVal.parsed t
        | none => TsVal.raw e.tsText
      { timestamp := ts, kwh := k, building := e.building } :: collect_user_input rest

/-- A cleaned CSV row viewed as a dataset row (its timestamp is a datetime). -/
def cleanToReading (c : CleanRow) : Reading :=
  { timestamp := TsVal.parsed c.timestamp, kwh := c.kwh, building := c.building }

/-- The merge in `main`: when CSV data exists and user rows exist they are
concatenated (CSV first); otherwise whichever side is nonempty is used. -/
def combineSources (dfCsv : Option (List CleanRow)) (dfUser : List Reading) :
    List Reading :=
  match dfCsv with
  | some dfc =>
    if dfc.isEmpty then dfUser
    else if dfUser.isEmpty then dfc.map cleanToReading
    else dfc.map cleanToReading ++ dfUser
  | none => dfUser

/-- Adjacent-pair comparison of dataset timestamps: on datetimes it is the
usual order; a pair involving raw text imposes no constraint. -/
def tsLeB : TsVal → TsVal → Bool
  | .parsed s, .parsed t => s ≤ t
  | _, _ => true

/-- The dataset is sorted by timestamp ascending (adjacent datetimes are
nondecreasing). -/
def sortedByTs : List Reading → Bool
  | [] => true
  | [_] => true
  | a :: b :: rest => tsLeB a.timestamp b.timestamp && sortedByTs (b :: rest)

end Energy

namespace Library

/-- A book record of `books.json`.  `add_book` creates records without
`borrower`/`due_date` keys (`none` here); `issue_book` fills both and
`return_book` resets both to `null`.  Dates are day numbers. -/
structure Book where
  title : String
  author : String
  isbn : String
  status : String
  borrower : Option String
  due_date : Option Nat
  deriving DecidableEq, Repr

/-- `find(isbn)`: the first book whose `isbn` field equals the argument. -/
def find (books : List Book) (isbn : String) : Option Book :=
  books.find? (fun b => b.isbn = isbn)

/-- `b.update({...})` through the reference returned by `find`: rewrite
the first record whose isbn matches, leave the rest unchanged. -/
def updateFirst (books : List Book) (isbn : String) (f : Book → Book) :
    List Book :=
  match books with
  | [] => []
  | b :: bs =>
    if b.isbn = isbn then f b :: bs else b :: updateFirst bs isbn f

/-- `add_book` on stripped inputs `t`, `a`, `i`: reject when title or ISBN
is empty or the ISBN already exists; otherwise append a new available book
(author defaulting to "Unknown"). -/
def add_book (books : List Book) (t a i : String) : List Book :=
  if t = "" ∨ i = "" then books
  else
    match find books i with
    | some _ => books
    | none =>
      books ++ [{ title := t,
                  author := if a = "" then "Unknown" else a,
                  isbn := i, status := "available",
                  borrower := none, due_date := none }]

/-- `issue_book` on ISBN `i` and borrower name `w` at date `now` (days):
no change and no save when the ISBN is absent or the book is not
available; otherwise status becomes "issued", the borrower is recorded
("Unknown" for an empty name) and the due date is `now + 14` days.  The
boolean reports whether `save(books)` ran. -/
def issue_book (books : List Book) (i w : String) (now : Nat) :
    List Book × Bool :=
  match find books i with
  | none => (books, false)
  | some b =>
    if b.status ≠ "available" then (books, false)
    else
      (updateFirst books i (fun x =>
        { x with status := "issued",
                 borrower := some (if w = "" then "Unknown" else w),
                 due_date := some (now + 14) }), true)

/-- `return_book` on ISBN `i`: no change and no save when the ISBN is
absent or the book is not issued; otherwise status returns to
"available" and borrower and due date are cleared to `null`. -/
def return_book (books : List Book) (i : String) : List Book × Bool :=
  match find books i with
  | none => (books, false)
  | some b =>
    if b.status ≠ "issued" then (books, false)
    else
      (updateFirst books i (fun x =>
        { x with status := "available", borrower := none, due_date := none }),
       true)

end Library

namespace Tracker

/-- What `tracker.py` prints as its summary once all meals are entered. -/
structure Summary where
  total : ℚ
  average : ℚ
  exceeded : Bool
  deriving DecidableEq, Repr

/-- The straight-line body of `tracker.py`: read `numMeals`, collect that
many (name, calories) entries, then compute
`total_calories / len(calories)` — which raises `ZeroDivisionError`
(modelled as `none`) when no meal was recorded — and compare against the
daily limit. -/
def tracker_run (numMeals : Nat) (entries : List (String × ℚ)) (limit : ℚ) :
    Option Summary :=
  let calories := (entries.take numMeals).map Prod.snd
  if calories.length = 0 then none
  else
    let total := calories.sum
    some { total := total,
           average := total / (calories.length : ℚ),
           exceeded := decide (limit < total) }

end Tracker

namespace Library

lemma find_updateFirst (books : List Book) (i : String) (f : Book → Book)
    (hf : ∀ b, (f b).isbn = b.isbn) :
    find (updateFirst books i f) i = (find books i).map f := by
  induction books with
  | nil => rfl
  | cons b bs ih =>
    by_cases h : b.isbn = i
    · simp [updateFirst, find, List.find?, h, hf b]
    · simp only [updateFirst, if_neg h, find, List.find?]
      rw [show (decide (b.isbn = i)) = false by simp [h]]
      exact ih

/-- Claim C6: issuing an available book sets its status to "issued", its
borrower to the entered name and its due date 14 days after the current
date; returning an issued book resets its status to "available" and
clears the borrower and due-date fields. -/
theorem issue_and_return_update_fields (books : List Book) (i w : String)
    (now : Nat) (b : Book) (hfind : find books i = some b) :
    (b.status = "available" →
      find (issue_book books i w now).1 i
        = some { b with
                 status := "issued",
                 borrower := some (if w = "" then "Unknown" else w),
                 due_date := some (now + 14) })
    ∧ (b.status = "issued" →
      find (return_book books i).1 i
        = some { b with
                 status := "available", borrower := none,
                 due_date := none }) := by
  constructor
  · intro hav
    simp only [issue_book, hfind]
    rw [if_neg (by simp [hav])]
    have hu := find_updateFirst books i (fun x =>
      { x with
        status := "issued",
        borrower := some (if w = "" then "Unknown" else w),
        due_date := some (now + 14) }) (fun x => rfl)
    simp [hu, hfind]
  · intro hiss
    simp only [return_book, hfind]
    rw [if_neg (by simp [hiss])]
    have hu := find_updateFirst books i (fun x =>
      { x with
        status := "available", borrower := none, due_date := none })
      (fun x => rfl)
    simp [hu, hfind]

/-- Concrete run of the C6 theorem on a one-book collection. -/
theorem issue_and_return_update_fields_witness :
    (("available" : String) = "available" →
      find (issue_book [⟨"T", "A", "1", "available", none, none⟩] "1" "W" 100).1 "1"
        = some ⟨"T", "A", "1", "issued",
                some (if ("W" : String) = "" then "Unknown" else "W"),
                some (100 + 14)⟩)
    ∧ (("available" : String) = "issued" →
      find (return_book [⟨"T", "A", "1", "available", none, none⟩] "1").1 "1"
        = some ⟨"T", "A", "1", "available", none, none⟩) :=
  issue_and_return_update_fields
    [⟨"T", "A", "1", "available", none, none⟩] "1" "W" 100
    ⟨"T", "A", "1", "available", none, none⟩ rfl

/-- Claim C7: adding a book whose ISBN already occurs in the collection is
rejected — the collection is returned unchanged, with nothing appended. -/
theorem add_duplicate_isbn_rejected (books : List Book) (t a i : String)
    (h : (find books i).isSome) : add_book books t a i = books := by
  simp only [add_book]
  by_cases ht : t = "" ∨ i = ""
  · rw [if_pos ht]
  · rw [if_neg ht]
    obtain ⟨b, hb⟩ := Option.isSome_iff_exists.mp h
    rw [hb]

/-- Concrete run of the C7 theorem: re-adding ISBN "1" changes nothing. -/
theorem add_duplicate_isbn_rejected_witness :
    add_book [⟨"T", "A", "1", "available", none, none⟩] "Other" "B" "1"
      = [⟨"T", "A", "1", "available", none, none⟩] :=
  add_duplicate_isbn_rejected
    [⟨"T", "A", "1", "available", none, none⟩] "Other" "B" "1" rfl

/-- Claim C9: a failing `issue_book` (ISBN absent or book not available)
and a failing `return_book` (ISBN absent or book not issued) each leave
the collection unchanged and perform no save. -/
theorem failed_issue_and_return_atomic (books : List Book) (i w : String)
    (now : Nat) :
    ((∀ b, find books i = some b → b.status ≠ "available") →
      issue_book books i w now = (books, false))
    ∧ ((∀ b, find books i = some b → b.status ≠ "issued") →
      return_book books i = (books, false)) := by
  constructor
  · intro h
    cases hfind : find books i with
    | none => simp [issue_book, hfind]
    | some b => simp [issue_book, hfind, h b hfind]
  · intro h
    cases hfind : find books i with
    | none => simp [return_book, hfind]
    | some b => simp [return_book, hfind, h b hfind]

/-- Concrete run of the C9 theorem: on an empty collection both
operations fail without touching the collection or saving. -/
theorem failed_issue_and_return_atomic_witness :
    ((∀ b, find [] "1" = some b → b.status ≠ "available") →
      issue_book [] "1" "W" 7 = ([], false))
    ∧ ((∀ b, find [] "1" = some b → b.status ≠ "issued") →
      return_book [] "1" = ([], false)) :=
  failed_issue_and_return_atomic [] "1" "W" 7

end Library

namespace Energy

/-- Claim C8: during manual entry, a row whose kWh text is not numeric is
skipped on its own — the session continues exactly as if that row had not
been entered, so rows before and after it are all retained and the
session still ends only at the `done` sentinel. -/
theorem invalid_kwh_skips_single_row (pre post : List UserEvent)
    (e : EntryRow) (hpre : ∀ ev ∈ pre, ev ≠ UserEvent.done)
    (he : e.kwhParse = none) :
    collect_user_input (pre ++ UserEvent.row e :: post)
      = collect_user_input (pre ++ post) := by
  induction pre with
  | nil =>
    simp only [List.nil_append]
    rw [collect_user_input, he]
  | cons ev pre ih =>
    have hne := hpre ev (List.mem_cons_self _ _)
    have hpre' : ∀ x ∈ pre, x ≠ UserEvent.done :=
      fun x hx => hpre x (List.mem_cons_of_mem _ hx)
    cases ev with
    | done => exact absurd rfl hne
    | row e' =>
      cases he' : e'.kwhParse with
      | none =>
        simp only [List.cons_append]
        rw [collect_user_input, he', collect_user_input, he']
        exact ih hpre'
      | some k =>
        simp only [List.cons_append]
        rw [collect_user_input, he', collect_user_input, he']
        exact congrArg (List.cons _) (ih hpre')

/-- Concrete run of the C8 theorem: of three entered rows the middle one
has non-numeric kWh text; exactly the first and third survive. -/
theorem invalid_kwh_skips_single_row_witness :
    (∀ ev ∈ [UserEvent.row ⟨"B1", "t1", some 1, "2", some 2⟩],
        ev ≠ UserEvent.done)
    ∧ collect_user_input
        ([UserEvent.row ⟨"B1", "t1", some 1, "2", some 2⟩]
          ++ UserEvent.row ⟨"B2", "t2", some 2, "abc", none⟩
            :: [UserEvent.row ⟨"B3", "t3", some 3, "4", some 4⟩,
                UserEvent.done])
      = collect_user_input
        ([UserEvent.row ⟨"B1", "t1", some 1, "2", some 2⟩]
          ++ [UserEvent.row ⟨"B3", "t3", some 3, "4", some 4⟩,
              UserEvent.done]) :=
  ⟨by decide,
   invalid_kwh_skips_single_row
     [UserEvent.row ⟨"B1", "t1", some 1, "2", some 2⟩]
     [UserEvent.row ⟨"B3", "t3", some 3, "4", some 4⟩, UserEvent.done]
     ⟨"B2", "t2", some 2, "abc", none⟩ (by decide) rfl⟩

end Energy

namespace Tracker

/-- Claim C10: answering 0 to the number-of-meals prompt leaves the
calories list empty, so the average computation divides by zero and the
run fails with an error instead of producing a summary. -/
theorem zero_meals_fails (entries : List (String × ℚ)) (limit : ℚ) :
    tracker_run 0 entries limit = none := by
  rfl

end Tracker

namespace Energy

/-! Partition lemmas: summing group sums over a duplicate-free list of keys
that covers every row's key gives the grand total. -/

lemma sum_map_filter_split {α : Type} (p : α → Bool) (f : α → ℚ) (l : List α) :
    ((l.filter p).map f).sum + ((l.filter (fun a => ¬ p a)).map f).sum
      = (l.map f).sum := by
  induction l with
  | nil => simp
  | cons a l ih =>
    by_cases h : p a = true
    · simp only [List.filter_cons, h, if_pos, List.map_cons, List.sum_cons]
      rw [if_neg (by simp [h])]
      rw [← ih]; ring
    · simp only [List.filter_cons]
      rw [if_neg (by simpa using h), if_pos (by simpa using h)]
      simp only [List.map_cons, List.sum_cons]
      rw [← ih]; ring

lemma sum_groups_eq_total {α K : Type} [DecidableEq K] (key : α → K) (f : α → ℚ) :
    ∀ (ks : List K) (l : List α), ks.Nodup → (∀ r ∈ l, key r ∈ ks) →
      (ks.map (fun d => ((l.filter (fun r => key r = d)).map f).sum)).sum
        = (l.map f).sum := by
  intro ks
  induction ks with
  | nil =>
    intro l _ hcov
    cases l with
    | nil => simp
    | cons a l => exact absurd (hcov a (List.mem_cons_self a l)) (by simp)
  | cons d ks ih =>
    intro l hnd hcov
    have hdk : d ∉ ks := (List.nodup_cons.mp hnd).1
    have hnd' : ks.Nodup := (List.nodup_cons.mp hnd).2
    set l2 := l.filter (fun r => ¬ key r = d) with hl2
    have hsame : ∀ d' ∈ ks,
        l2.filter (fun r => key r = d') = l.filter (fun r => key r = d') := by
      intro d' hd'
      have hne : d' ≠ d := fun h => hdk (h ▸ hd')
      rw [hl2, List.filter_filter]
      apply List.filter_congr
      intro a _
      by_cases h : key a = d'
      · simp [h, hne]
      · simp [h]
    have hcov2 : ∀ r ∈ l2, key r ∈ ks := by
      intro r hr
      have hrl : r ∈ l := List.mem_of_mem_filter hr
      have hrd : ¬ key r = d := by
        have := List.of_mem_filter hr
        simpa using this
      have := hcov r hrl
      rcases List.mem_cons.mp this with h | h
      · exact absurd h hrd
      · exact h
    have ihl2 := ih l2 hnd' hcov2
    calc (((d :: ks)).map
            (fun d' => ((l.filter (fun r => key r = d')).map f).sum)).sum
        = ((l.filter (fun r => key r = d)).map f).sum
            + (ks.map (fun d' => ((l.filter (fun r => key r = d')).map f).sum)).sum := by
          simp
      _ = ((l.filter (fun r => key r = d)).map f).sum
            + (ks.map (fun d' => ((l2.filter (fun r => key r = d')).map f).sum)).sum := by
          congr 1
          refine congrArg List.sum (List.map_congr_left ?_)
          intro d' hd'
          rw [hsame d' hd']
      _ = ((l.filter (fun r => key r = d)).map f).sum + (l2.map f).sum := by
          rw [ihl2]
      _ = (l.map f).sum := by
          rw [hl2]
          have := sum_map_filter_split (fun r => key r = d) f l
          simpa using this

lemma foldl_min_le_init : ∀ (l : List Int) (a : Int), l.foldl min a ≤ a := by
  intro l
  induction l with
  | nil => intro a; exact le_refl a
  | cons x l ih => intro a; exact le_trans (ih (min a x)) (min_le_left a x)

lemma foldl_min_le_mem :
    ∀ (l : List Int) (a : Int) (x : Int), x ∈ l → l.foldl min a ≤ x := by
  intro l
  induction l with
  | nil => intro a x hx; cases hx
  | cons y l ih =>
    intro a x hx
    rcases List.mem_cons.mp hx with h | h
    · subst h; exact le_trans (foldl_min_le_init l (min a x)) (min_le_right a x)
    · exact ih (min a y) x h

lemma init_le_foldl_max : ∀ (l : List Int) (a : Int), a ≤ l.foldl max a := by
  intro l
  induction l with
  | nil => intro a; exact le_refl a
  | cons x l ih => intro a; exact le_trans (le_max_left a x) (ih (max a x))

lemma mem_le_foldl_max :
    ∀ (l : List Int) (a : Int) (x : Int), x ∈ l → x ≤ l.foldl max a := by
  intro l
  induction l with
  | nil => intro a x hx; cases hx
  | cons y l ih =>
    intro a x hx
    rcases List.mem_cons.mp hx with h | h
    · subst h; exact le_trans (le_max_right a x) (init_le_foldl_max l (max a x))
    · exact ih (max a y) x h

lemma nodup_daysRange (lo hi : Int) : (daysRange lo hi).Nodup := by
  have h : Function.Injective (fun i : ℕ => lo + (i : Int)) := by
    intro i j hij
    simp only at hij
    omega
  exact List.Nodup.map h (List.nodup_range _)

lemma mem_daysRange {lo hi d : Int} (h1 : lo ≤ d) (h2 : d ≤ hi) :
    d ∈ daysRange lo hi := by
  simp only [daysRange, List.mem_map, List.mem_range]
  exact ⟨(d - lo).toNat, by omega, by omega⟩

/-- The resampled daily buckets sum to the frame's total kwh. -/
lemma daily_sum_eq_total (df : List CleanRow) :
    ((calculate_daily_totals df).map Prod.snd).sum = (df.map CleanRow.kwh).sum := by
  cases df with
  | nil => rfl
  | cons r rs =>
    rw [calculate_daily_totals, List.map_map]
    have hcov : ∀ x ∈ r :: rs,
        dayOf x.timestamp ∈ daysRange (loDay (r :: rs) (dayOf r.timestamp))
                                      (hiDay (r :: rs) (dayOf r.timestamp)) := by
      intro x hx
      refine mem_daysRange ?_ ?_
      · exact foldl_min_le_mem _ _ _ (List.mem_map.mpr ⟨x, hx, rfl⟩)
      · exact mem_le_foldl_max _ _ _ (List.mem_map.mpr ⟨x, hx, rfl⟩)
    have := sum_groups_eq_total (fun x : CleanRow => dayOf x.timestamp)
      CleanRow.kwh
      (daysRange (loDay (r :: rs) (dayOf r.timestamp))
                 (hiDay (r :: rs) (dayOf r.timestamp)))
      (r :: rs) (nodup_daysRange _ _) hcov
    simpa [Function.comp_def] using this

/-- The per-building summary totals sum to the frame's total kwh. -/
lemma building_sum_eq_total (df : List CleanRow) :
    ((building_wise_summary df).map BuildingStat.total_kwh).sum
      = (df.map CleanRow.kwh).sum := by
  unfold building_wise_summary
  have hperm :=
    (List.perm_insertionSort
      (fun a b : BuildingStat => b.total_kwh ≤ a.total_kwh)
      (((df.map CleanRow.building).dedup).map (fun b =>
        let ks := groupKwh df b
        { building := b, mean := ks.sum / (ks.length : ℚ),
          min := listMin ks, max := listMax ks,
          total_kwh := ks.sum : BuildingStat })))
  rw [(hperm.map BuildingStat.total_kwh).sum_eq, List.map_map]
  have hcov : ∀ x ∈ df, x.building ∈ (df.map CleanRow.building).dedup := by
    intro x hx
    exact List.mem_dedup.mpr (List.mem_map.mpr ⟨x, hx, rfl⟩)
  have := sum_groups_eq_total CleanRow.building CleanRow.kwh
    ((df.map CleanRow.building).dedup) df (List.nodup_dedup _) hcov
  simpa [Function.comp_def, groupKwh] using this

lemma readFrame_eq_none_of_malformed (f : CsvFile) (h : malformed f) :
    readFrame f = none := by
  rcases f with ⟨stem, content⟩
  cases content with
  | parseError => rfl
  | emptyFile => rfl
  | table cols rows =>
    simp only [readFrame]
    rw [if_neg]
    simp only [malformed] at h
    tauto

/-- Claim C1: for a directory that is absent, holds no CSV file, or holds
only malformed CSV files (unreadable, empty, or missing the `timestamp` or
`kwh` column), `load_and_combine_data` returns the empty result `None`
without raising. -/
theorem load_empty_on_all_malformed (dir : Option (List CsvFile))
    (h : ∀ files, dir = some files → ∀ f ∈ files, malformed f) :
    load_and_combine_data dir = none := by
  cases dir with
  | none => rfl
  | some files =>
    have hall : ∀ f ∈ files, malformed f := h files rfl
    simp only [load_and_combine_data]
    by_cases he :
        (List.insertionSort (fun a b : CsvFile => a.stem ≤ b.stem) files).isEmpty
    · rw [if_pos he]
    · rw [if_neg he]
      have hframes :
          (List.insertionSort (fun a b : CsvFile => a.stem ≤ b.stem)
            files).filterMap readFrame = [] := by
        refine List.filterMap_eq_nil_iff.mpr ?_
        intro f hf
        have hmem : f ∈ files :=
          (List.perm_insertionSort
            (fun a b : CsvFile => a.stem ≤ b.stem) files).mem_iff.mp hf
        exact readFrame_eq_none_of_malformed f (hall f hmem)
      rw [if_pos (by rw [hframes]; rfl)]

/-- Concrete run of the C1 theorem: a directory holding one unreadable
file and one file lacking the `kwh` column yields the empty result. -/
theorem load_empty_on_all_malformed_witness :
    load_and_combine_data
      (some [⟨"a", CsvContent.parseError⟩,
             ⟨"b", CsvContent.table ["timestamp"] []⟩]) = none :=
  load_empty_on_all_malformed _ (by
    intro files hf f hmem
    cases hf
    rcases List.mem_cons.mp hmem with h | h
    · rw [h]; trivial
    · rcases List.mem_cons.mp h with h2 | h2
      · rw [h2]; simp [malformed]
      · cases h2)

/-- Claim C2: for every dataset of readings with parseable timestamps and
numeric kwh values, the daily totals of `calculate_daily_totals` sum to
the dataset's total kwh. -/
theorem daily_totals_sum_eq_dataset_total (df : List CleanRow) :
    ((calculate_daily_totals df).map Prod.snd).sum = (df.map CleanRow.kwh).sum :=
  daily_sum_eq_total df

/-- Claim C3: for every dataset, the per-building `total_kwh` values of
`building_wise_summary` sum to the same grand total as the daily totals of
`calculate_daily_totals`. -/
theorem building_totals_sum_eq_daily_totals_sum (df : List CleanRow) :
    ((building_wise_summary df).map BuildingStat.total_kwh).sum
      = ((calculate_daily_totals df).map Prod.snd).sum :=
  (building_sum_eq_total df).trans (daily_sum_eq_total df).symm

/-- The dataset holds some reading whose timestamp is unparsed raw text. -/
def hasRawTs (l : List Reading) : Bool :=
  l.any (fun r => match r.timestamp with
    | TsVal.raw _ => true
    | TsVal.parsed _ => false)

lemma mem_collect_user_input {evs : List UserEvent} {r : Reading}
    (hr : r ∈ collect_user_input evs) :
    ∃ e : EntryRow, UserEvent.row e ∈ evs ∧ e.kwhParse = some r.kwh ∧
      r.building = e.building ∧
      ((∃ t, e.tsParse = some t ∧ r.timestamp = TsVal.parsed t) ∨
        (e.tsParse = none ∧ r.timestamp = TsVal.raw e.tsText)) := by
  induction evs with
  | nil => cases hr
  | cons ev rest ih =>
    cases ev with
    | done => cases hr
    | row e =>
      cases he : e.kwhParse with
      | none =>
        rw [collect_user_input, he] at hr
        obtain ⟨e', h1, h2⟩ := ih hr
        exact ⟨e', List.mem_cons_of_mem _ h1, h2⟩
      | some k =>
        rw [collect_user_input, he] at hr
        rcases List.mem_cons.mp hr with h | h
        · refine ⟨e, List.mem_cons_self _ _, ?_, ?_, ?_⟩
          · rw [h, he]
          · rw [h]
          · cases ht : e.tsParse with
            | some t => left; exact ⟨t, rfl, by rw [h]; simp [ht]⟩
            | none => right; exact ⟨rfl, by rw [h]; simp [ht]⟩
        · obtain ⟨e', h1, h2⟩ := ih h
          exact ⟨e', List.mem_cons_of_mem _ h1, h2⟩

/-- Counterexample to claim C4: with no CSV data and one manual entry
whose kWh text parses but whose timestamp text does not, the combined
dataset contains a reading whose timestamp is the unparsed raw text — the
reading is not discarded. -/
theorem manual_raw_timestamp_enters_dataset :
    hasRawTs (combineSources none (collect_user_input
      [UserEvent.row ⟨"B1", "garbage", none, "5", some 5⟩,
       UserEvent.done])) = true := by
  rfl

/-- Claim C4 as amended: every reading of the combined dataset has a
numeric kwh; a reading whose timestamp is not a parsed datetime can only
come from a manual entry whose kWh text parsed but whose timestamp text
failed to parse, and that raw text is kept as the reading's timestamp
rather than the reading being discarded (CSV ingestion itself contributes
only fully parsed readings). -/
theorem raw_timestamp_only_from_manual_entry (dfCsv : Option (List CleanRow))
    (evs : List UserEvent) (r : Reading)
    (hr : r ∈ combineSources dfCsv (collect_user_input evs))
    (hraw : ∀ t, r.timestamp ≠ TsVal.parsed t) :
    ∃ e : EntryRow, UserEvent.row e ∈ evs ∧ e.kwhParse = some r.kwh ∧
      e.tsParse = none ∧ r.timestamp = TsVal.raw e.tsText ∧
      r.building = e.building := by
  have huser : r ∈ collect_user_input evs := by
    cases dfCsv with
    | none => exact hr
    | some dfc =>
      simp only [combineSources] at hr
      by_cases h1 : dfc.isEmpty
      · rw [if_pos h1] at hr; exact hr
      · rw [if_neg h1] at hr
        by_cases h2 : (collect_user_input evs).isEmpty
        · rw [if_pos h2] at hr
          obtain ⟨c, _, hc⟩ := List.mem_map.mp hr
          exact absurd (hc ▸ rfl) (hraw c.timestamp)
        · rw [if_neg h2] at hr
          rcases List.mem_append.mp hr with h | h
          · obtain ⟨c, _, hc⟩ := List.mem_map.mp h
            exact absurd (hc ▸ rfl) (hraw c.timestamp)
          · exact h
  obtain ⟨e, h1, h2, h3, h4⟩ := mem_collect_user_input huser
  rcases h4 with ⟨t, _, hts⟩ | ⟨hn, hts⟩
  · exact absurd hts (hraw t)
  · exact ⟨e, h1, h2, hn, hts, h3⟩

/-- Concrete run of the amended C4 theorem at the counterexample input. -/
theorem raw_timestamp_only_from_manual_entry_witness :
    ∃ e : EntryRow,
      UserEvent.row e ∈ [UserEvent.row ⟨"B1", "garbage", none, "5", some 5⟩,
                         UserEvent.done] ∧
      e.kwhParse = some (5 : ℚ) ∧ e.tsParse = none ∧
      TsVal.raw "garbage" = TsVal.raw e.tsText ∧ "B1" = e.building :=
  raw_timestamp_only_from_manual_entry none
    [UserEvent.row ⟨"B1", "garbage", none, "5", some 5⟩, UserEvent.done]
    ⟨TsVal.raw "garbage", 5, "B1"⟩ (by decide)
    (by intro t h; cases h)

/-- Counterexample to claim C5: a CSV reading on day 10 merged with a
manually entered reading at an earlier datetime gives a combined dataset
that is not sorted by timestamp ascending — concatenation does not
re-sort. -/
theorem merged_dataset_not_sorted :
    sortedByTs (combineSources
      (load_and_combine_data
        (some [⟨"bldgA",
          CsvContent.table ["timestamp", "kwh"] [(some 864000, some 1)]⟩]))
      (collect_user_input
        [UserEvent.row ⟨"B2", "2020-01-01", some 5, "2", some 2⟩,
         UserEvent.done])) = false := by
  rfl

instance : IsTotal CleanRow (fun a b => a.timestamp ≤ b.timestamp) :=
  ⟨fun a b => le_total a.timestamp b.timestamp⟩

instance : IsTrans CleanRow (fun a b => a.timestamp ≤ b.timestamp) :=
  ⟨fun _ _ _ hab hbc => le_trans hab hbc⟩

/-- Claim C5 as amended: the dataset returned by `load_and_combine_data`
is sorted by timestamp ascending; after merging manually entered rows by
concatenation the combined dataset need not be sorted (manual rows are
appended after the CSV rows). -/
theorem csv_dataset_sorted (dir : Option (List CsvFile)) (df : List CleanRow)
    (h : load_and_combine_data dir = some df) :
    List.Chain' (fun a b : CleanRow => a.timestamp ≤ b.timestamp) df := by
  cases dir with
  | none => cases h
  | some files =>
    simp only [load_and_combine_data] at h
    split at h
    · cases h
    · split at h
      · cases h
      · cases h
        refine List.Pairwise.chain' ?_
        exact List.sorted_insertionSort _ _

/-- Concrete run of the amended C5 theorem: a two-row CSV file entered
out of order comes back sorted ascending. -/
theorem csv_dataset_sorted_witness :
    List.Chain' (fun a b : CleanRow => a.timestamp ≤ b.timestamp)
      [⟨3, 2, "a"⟩, ⟨86401, 1, "a"⟩] :=
  csv_dataset_sorted
    (some [⟨"a", CsvContent.table ["timestamp", "kwh"]
      [(some 86401, some 1), (some 3, some 2)]⟩])
    [⟨3, 2, "a"⟩, ⟨86401, 1, "a"⟩] rfl

end Energy
